import Mathlib

/-!
Verification of the evosim neural-network servers.

The repository ships two protocol variants:
* `src/Core/server.py`: a cache of fixed-topology `SimpleNet` models
  (7 → 12 → 12 → 6, tanh/tanh/sigmoid), initialized from flat genomes of
  330 weights, evaluated on a 7-field sensor vector with per-field defaults.
* `src/Server/server.py`: a registry of DDPG `Brain`s, each holding an
  `Actor` (25 → 128 → 128 → 3, relu/relu/sigmoid), a `Critic`
  (28 → 128 → 128 → 1, relu/relu/linear), target copies of both, and a
  replay buffer of capacity 2000, trained with batch size 64, γ = 0.99,
  τ = 0.005.

Scalars are modelled as `ℚ`.  The transcendental activations (tanh,
sigmoid) and the Adam/backprop arithmetic of PyTorch are not rational, so
they enter the embedding as explicit function parameters: `tanhF sigmoidF :
ℚ → ℚ` stand for the activations, and the optimizer updates of
`optimizer_critic.step()` / `optimizer_actor.step()` enter `train_step` as
functions `stepC stepA : MLP3 → MLP3 → MLP3` applied to exactly the
parameter set each `optim.Adam` instance owns in the source (gradients,
produced by autograd in the source, are the second argument).  Randomness
(network initialization, `random.sample`) likewise enters as parameters:
`inits` gives the random draw used when a fresh `Brain` is constructed,
and `sel` gives the list of positions chosen by `random.sample`, whose
documented contract is: distinct positions, `min batch_size len` of them.
Adam moment state is carried by the abstracted step functions and is not
re-modelled, since no claim mentions it.
-/

namespace EvoSim

/-- Flat vector of scalars (a 1-D tensor). -/
abbrev Vec := List ℚ

/-- Dot product of two vectors (rows are zipped, as in a matrix-vector product). -/
def dot (a b : Vec) : ℚ := (List.zipWith (fun x y => x * y) a b).sum

/-- One `nn.Linear` layer: a weight matrix (list of rows, out × in) and a bias vector. -/
structure LinearQ where
  weight : List Vec
  bias : Vec
deriving DecidableEq

/-- Affine application of a linear layer: row-wise dot product plus bias. -/
def LinearQ.apply (l : LinearQ) (x : Vec) : Vec :=
  List.zipWith (fun row b => dot row x + b) l.weight l.bias

/-! ## Core variant: `SimpleNet` (src/Core/server.py) -/

/-- The Core `SimpleNet`: fc1 (7→12), fc2 (12→12), fc3 (12→6). -/
structure SimpleNet where
  fc1 : LinearQ
  fc2 : LinearQ
  fc3 : LinearQ
deriving DecidableEq

/-- Row-major reshape of a flat vector into `rows` rows of `cols` entries
(`tensor.reshape(rows, cols)`). -/
def reshapeRows (rows cols : Nat) (xs : Vec) : List Vec :=
  (List.range rows).map (fun i => (xs.drop (i * cols)).take cols)

/-- `SimpleNet.load_genome_weights`: validates the length *first* (raising
`ValueError` — the spec's `ShapeMismatch` — when it is not 330, leaving the
net untouched), then assigns fc1 weights/bias from `w[0:96]`, fc2 from
`w[96:252]`, fc3 from `w[252:330]`, weights row-major before biases.
The `Option String` component models the raised exception. -/
def SimpleNet.load_genome_weights (net : SimpleNet) (w : Vec) : SimpleNet × Option String :=
  if w.length ≠ 330 then (net, some "ShapeMismatch: expected 330 weights") else
    ({ fc1 := ⟨reshapeRows 12 7 ((w.take 96).take 84), (w.take 96).drop 84⟩,
       fc2 := ⟨reshapeRows 12 12 (((w.drop 96).take 156).take 144), ((w.drop 96).take 156).drop 144⟩,
       fc3 := ⟨reshapeRows 6 12 ((w.drop 252).take 72), ((w.drop 252).drop 72).take 6⟩ },
     none)

/-- `SimpleNet.forward`: tanh after fc1 and fc2, sigmoid after fc3.
The activations are passed in as functions (they are transcendental). -/
def SimpleNet.forward (tanhF sigmoidF : ℚ → ℚ) (net : SimpleNet) (x : Vec) : Vec :=
  ((net.fc3.apply ((net.fc2.apply ((net.fc1.apply x).map tanhF)).map tanhF))).map sigmoidF

/-- A Python dictionary key as used by both servers: JSON ids are either
integers or strings, and an `int` key never equals a `str` key in a dict. -/
inductive PyKey where
  | intK : Int → PyKey
  | strK : String → PyKey
deriving DecidableEq

/-- One entry of the Core `evaluate` sensor batch: every field is optional
(`sensor.get(...)` with a default). -/
structure CoreSensor where
  id : Option PyKey
  PlantNormalizedDistance : Option ℚ
  PlantAngleSin : Option ℚ
  PlantAngleCos : Option ℚ
  CreatureNormalizedDistance : Option ℚ
  CreatureAngleSin : Option ℚ
  CreatureAngleCos : Option ℚ
  Hunger : Option ℚ

/-- The Core sensor-input vector: fixed field order with per-field defaults
(1.0 for the two normalized distances, 0.0 for the rest). -/
def CoreSensor.inputVec (s : CoreSensor) : Vec :=
  [s.PlantNormalizedDistance.getD 1, s.PlantAngleSin.getD 0, s.PlantAngleCos.getD 0,
   s.CreatureNormalizedDistance.getD 1, s.CreatureAngleSin.getD 0, s.CreatureAngleCos.getD 0,
   s.Hunger.getD 0]

/-- The six jet-force outputs of the Core evaluate response. -/
structure JetForces where
  Front : ℚ
  Back : ℚ
  TopRight : ℚ
  TopLeft : ℚ
  BottomRight : ℚ
  BottomLeft : ℚ
deriving DecidableEq

/-- The zero-filled jet-force record written by the Core `except` branch. -/
def zeroJet : JetForces := ⟨0, 0, 0, 0, 0, 0⟩

/-- Package the first six network outputs as jet forces (`output[0]` … `output[5]`). -/
def jetOfOutput (o : Vec) : JetForces :=
  ⟨o.getD 0 0, o.getD 1 0, o.getD 2 0, o.getD 3 0, o.getD 4 0, o.getD 5 0⟩

/-- Result of one Core evaluate entry: `NeuralNetworkManager.evaluate`
raises for an unregistered id (including a missing id, which looks up the
key `None`), and the `except` branch then writes the zero-filled record;
otherwise the cached model's forward output on the default-substituted
input vector is written. -/
def coreEvalEntry (tanhF sigmoidF : ℚ → ℚ) (models : PyKey → Option SimpleNet)
    (s : CoreSensor) : JetForces :=
  match s.id with
  | none => zeroJet
  | some k =>
    match models k with
    | none => zeroJet
    | some net => jetOfOutput (net.forward tanhF sigmoidF s.inputVec)

/-- One write into the Core `results` dict: `results[creature_id] = ...`. -/
def coreResInsert (tanhF sigmoidF : ℚ → ℚ) (models : PyKey → Option SimpleNet)
    (res : Option PyKey → Option JetForces) (s : CoreSensor) :
    Option PyKey → Option JetForces :=
  fun q => if q = s.id then some (coreEvalEntry tanhF sigmoidF models s) else res q

/-- The Core `evaluate` branch: every sensor entry writes its result into
the `results` dict under its id (later entries with the same id overwrite),
and the response status is always `"evaluated"`. -/
def coreEvaluate (tanhF sigmoidF : ℚ → ℚ) (models : PyKey → Option SimpleNet)
    (sensors : List CoreSensor) : (Option PyKey → Option JetForces) × String :=
  (sensors.foldl (coreResInsert tanhF sigmoidF models) (fun _ => none), "evaluated")

/-! ## Server variant (src/Server/server.py) -/

/-- Hyperparameter `STATE_DIM`. -/
def STATE_DIM : Nat := 25
/-- Hyperparameter `BATCH_SIZE`. -/
def BATCH_SIZE : Nat := 64
/-- Hyperparameter `GAMMA` (0.99). -/
def GAMMA : ℚ := 99 / 100
/-- Hyperparameter `TAU` (0.005). -/
def TAU : ℚ := 5 / 1000
/-- Hyperparameter `REPLAY_BUFFER_CAPACITY`. -/
def REPLAY_BUFFER_CAPACITY : Nat := 2000

/-- A three-layer perceptron as used for both `Actor` (fc1, fc2, out with
relu/relu/sigmoid) and `Critic` (fc1, fc2, out with relu/relu/identity). -/
structure MLP3 where
  fc1 : LinearQ
  fc2 : LinearQ
  out : LinearQ
deriving DecidableEq

/-- Elementwise relu. -/
def reluV (v : Vec) : Vec := v.map (fun a => max a 0)

/-- `Actor.forward`: relu, relu, then sigmoid on the output layer. -/
def Actor.forward (sigmoidF : ℚ → ℚ) (A : MLP3) (x : Vec) : Vec :=
  (A.out.apply (reluV (A.fc2.apply (reluV (A.fc1.apply x))))).map sigmoidF

/-- `Critic.forward`: the state and action are concatenated, then relu,
relu, and a linear output layer (an unbounded scalar Q-value). -/
def Critic.forward (C : MLP3) (s a : Vec) : Vec :=
  C.out.apply (reluV (C.fc2.apply (reluV (C.fc1.apply (s ++ a)))))

/-- One replay-buffer transition. -/
structure Transition where
  state : Vec
  action : Vec
  reward : ℚ
  next_state : Vec
  done : Bool
deriving DecidableEq

/-- Placeholder transition used to totalize list indexing (all indexing in
the theorems happens at valid positions). -/
def defaultTransition : Transition := ⟨[], [], 0, [], false⟩

/-- `ReplayBuffer.push` for a `deque(maxlen := capacity)`: append on the
right, evicting from the left whatever exceeds the capacity. -/
def ReplayBuffer.push (capacity : Nat) (buf : List Transition) (x : Transition) : List Transition :=
  let b := buf ++ [x]
  b.drop (b.length - capacity)

/-- `ReplayBuffer.sample`: `random.sample` picks distinct positions; the
chosen positions `sel` are a parameter of the embedding. -/
def ReplayBuffer.sample (buf : List Transition) (sel : List Nat) : List Transition :=
  sel.map (fun i => buf.getD i defaultTransition)

/-- A `Brain`: live actor and critic, their target copies, and the replay
buffer.  The two Adam optimizers' moment state is abstracted into the step
functions passed to `train_step`. -/
structure Brain where
  actor : MLP3
  critic : MLP3
  actor_target : MLP3
  critic_target : MLP3
  replay_buffer : List Transition
deriving DecidableEq

/-- `Brain.__init__` with the random draws `a` (actor) and `c` (critic):
the target networks are loaded from the live networks' state dicts, the
replay buffer starts empty. -/
def mkBrain (a c : MLP3) : Brain := ⟨a, c, a, c, []⟩

/-- Elementwise combination of two weight matrices. -/
def matZip (f : ℚ → ℚ → ℚ) (a b : List Vec) : List Vec :=
  List.zipWith (fun ra rb => List.zipWith f ra rb) a b

/-- Elementwise combination of two linear layers. -/
def LinearQ.zipParams (f : ℚ → ℚ → ℚ) (a b : LinearQ) : LinearQ :=
  ⟨matZip f a.weight b.weight, List.zipWith f a.bias b.bias⟩

/-- Elementwise combination of all parameters of two `MLP3`s. -/
def MLP3.zipParams (f : ℚ → ℚ → ℚ) (a b : MLP3) : MLP3 :=
  ⟨a.fc1.zipParams f b.fc1, a.fc2.zipParams f b.fc2, a.out.zipParams f b.out⟩

/-- The soft update `target ← target·(1−τ) + live·τ`, elementwise over
every weight and bias. -/
def softUpdateMLP (tau : ℚ) (target live : MLP3) : MLP3 :=
  MLP3.zipParams (fun t p => t * (1 - tau) + p * tau) target live

/-- Pythonic bool-to-float conversion applied to the `done` flags. -/
def boolToQ (b : Bool) : ℚ := if b then 1 else 0

/-- The critic regression target of one transition, computed inside
`torch.no_grad()`: `y = reward + GAMMA * (1 - done) * critic_target(next_state,
actor_target(next_state))`. -/
def Brain.targetY (sigmoidF : ℚ → ℚ) (b : Brain) (tr : Transition) : ℚ :=
  tr.reward + GAMMA * (1 - boolToQ tr.done) *
    ((Critic.forward b.critic_target tr.next_state
        (Actor.forward sigmoidF b.actor_target tr.next_state)).headD 0)

/-- Mean of a vector (`tensor.mean()`). -/
def mean (v : Vec) : ℚ := v.sum / v.length

/-- `F.mse_loss` with its default mean reduction. -/
def mseLoss (a b : Vec) : ℚ := mean (List.zipWith (fun x y => (x - y) ^ 2) a b)

/-- `Brain.train_step`.  Returns `none` when the buffer holds fewer than
`BATCH_SIZE` transitions.  Otherwise: sample, compute the no-grad critic
targets, update the critic (`stepC` applied to the critic's parameters and
the autograd gradient `gradC` — `optimizer_critic` owns only the critic's
parameters), compute the actor loss through the *updated* critic, update
the actor (`stepA`, `gradA` — `optimizer_actor` owns only the actor's
parameters), then soft-update both target networks towards the new live
networks.  Returns the updated brain with the actor and critic losses. -/
def Brain.train_step (sigmoidF : ℚ → ℚ) (sel : List Nat)
    (stepC stepA : MLP3 → MLP3 → MLP3) (gradC gradA : MLP3) (b : Brain) :
    Option (Brain × ℚ × ℚ) :=
  if b.replay_buffer.length < BATCH_SIZE then none else
  let batch := ReplayBuffer.sample b.replay_buffer sel
  let ys := batch.map (b.targetY sigmoidF)
  let qs := batch.map (fun tr => (Critic.forward b.critic tr.state tr.action).headD 0)
  let criticLoss := mseLoss qs ys
  let critic1 := stepC b.critic gradC
  let actorLoss :=
    - mean (batch.map (fun tr =>
        (Critic.forward critic1 tr.state (Actor.forward sigmoidF b.actor tr.state)).headD 0))
  let actor1 := stepA b.actor gradA
  some ({ b with
            actor := actor1,
            critic := critic1,
            actor_target := softUpdateMLP TAU b.actor_target actor1,
            critic_target := softUpdateMLP TAU b.critic_target critic1 },
        actorLoss, criticLoss)

/-! ### Registry and protocol dispatch (Server variant) -/

/-- The global `brains` dictionary. -/
abbrev Registry := PyKey → Option Brain

/-- `get_brain`: return the brain stored under the *raw* id, lazily
constructing and inserting a fresh one when absent.  `inits` supplies the
random initialization of a freshly constructed brain. -/
def get_brain (inits : PyKey → MLP3 × MLP3) (reg : Registry) (k : PyKey) : Brain × Registry :=
  match reg k with
  | some b => (b, reg)
  | none =>
    let b := mkBrain (inits k).1 (inits k).2
    (b, fun q => if q = k then some b else reg q)

/-- The parameter tensors of an `MLP3` in `parameters()` order, each
flattened row-major: fc1.weight, fc1.bias, fc2.weight, fc2.bias,
out.weight, out.bias. -/
def MLP3.paramsFlatList (A : MLP3) : List Vec :=
  [A.fc1.weight.flatten, A.fc1.bias, A.fc2.weight.flatten, A.fc2.bias,
   A.out.weight.flatten, A.out.bias]

/-- Total scalar parameter count of an `MLP3`. -/
def MLP3.totalNumel (A : MLP3) : Nat := (A.paramsFlatList.map List.length).sum

/-- The pointer walk of `set_actor_weights_from_flat_list`: for each
parameter in order, slice `flat[ptr : ptr + numel]` (a Python slice keeps
whatever is available) and `view_as` it, which raises exactly when the
slice is shorter than the parameter; parameters before the failure point
keep their new values, the failing parameter and everything after it keep
their old values.  The `Bool` records whether the exception was raised. -/
def setParamsAux (flat : Vec) : List Vec → Nat → List Vec × Bool
  | [], _ => ([], false)
  | p :: ps, ptr =>
    let s := (flat.drop ptr).take p.length
    if s.length = p.length then
      let r := setParamsAux flat ps (ptr + p.length)
      (s :: r.1, r.2)
    else (p :: ps, true)

/-- Carve a flat vector into rows shaped like the template (the inverse of
flattening, used to rebuild a weight matrix from its flat slice). -/
def carve (tpl : List Vec) (xs : Vec) : List Vec :=
  match tpl with
  | [] => []
  | r :: rs => xs.take r.length :: carve rs (xs.drop r.length)

/-- Rebuild an `MLP3` from the (possibly partially updated) flat parameter
list produced by `setParamsAux`, reusing the original row shapes. -/
def MLP3.withParams (A : MLP3) (ps : List Vec) : MLP3 :=
  { fc1 := ⟨carve A.fc1.weight (ps.getD 0 []), ps.getD 1 []⟩,
    fc2 := ⟨carve A.fc2.weight (ps.getD 2 []), ps.getD 3 []⟩,
    out := ⟨carve A.out.weight (ps.getD 4 []), ps.getD 5 []⟩ }

/-- `set_actor_weights_from_flat_list`: copy consecutive slices of the flat
list into the network's parameters in order, with **no length validation**;
the `Bool` records whether a shape error was raised partway. -/
def set_actor_weights_from_flat_list (A : MLP3) (flat : Vec) : MLP3 × Bool :=
  let r := setParamsAux flat A.paramsFlatList 0
  (A.withParams r.1, r.2)

/-- Python `int(...)` applied to a dict key: the identity on integers, the
numeric parse on strings (`none` models the raised `ValueError`).  The
parse is a parameter of the embedding. -/
def pyInt (strToInt : String → Option Int) : PyKey → Option PyKey
  | PyKey.intK n => some (PyKey.intK n)
  | PyKey.strK s => (strToInt s).map PyKey.intK

/-- The `init` branch of `process_command`: build a fresh `Brain`, load the
flat weights into its actor, and store it under `int(creature_id)` — not
under the raw id.  Any exception (shape error while loading, or a
non-numeric string id) yields an error response and stores nothing.  The
`Bool` is `true` for the `ok` response. -/
def processInit (strToInt : String → Option Int) (reg : Registry) (k : PyKey) (w : Vec)
    (a c : MLP3) : Registry × Bool :=
  let b0 := mkBrain a c
  let r := set_actor_weights_from_flat_list a w
  if r.2 then (reg, false) else
  match pyInt strToInt k with
  | none => (reg, false)
  | some kk => ((fun q => if q = kk then some { b0 with actor := r.1 } else reg q), true)

/-- One entry of the Server `evaluate` sensor batch; each field read of the
`try` block raises `KeyError` when absent, so the fields are optional. -/
structure ServerSensor where
  id : Option PyKey
  PlantRetina : Option Vec
  NonParasiteCreatureRetina : Option Vec
  ParasiteCreatureRetina : Option Vec
  Energy : Option ℚ

/-- The assembled sensor vector `plant_retina + (non_parasite_retina +
parasite_retina) + [energy]`, or `none` when any field is missing
(`KeyError`). -/
def ServerSensor.sensorValues (s : ServerSensor) : Option Vec :=
  match s.PlantRetina, s.NonParasiteCreatureRetina, s.ParasiteCreatureRetina, s.Energy with
  | some pr, some npr, some par, some e => some (pr ++ (npr ++ par) ++ [e])
  | _, _, _, _ => none

/-- The three actuator outputs of the Server evaluate response. -/
structure JetResult3 where
  Back : ℚ
  FrontRight : ℚ
  FrontLeft : ℚ
deriving DecidableEq

/-- The Server evaluate `results` dictionary, keyed by `int(creature_id)`. -/
abbrev ResMap := PyKey → Option JetResult3

/-- Processing of one Server evaluate entry: skip on a missing id, a
missing sensor field (`KeyError`), or a wrong-length vector; otherwise
get-or-create the brain under the raw id, run the actor, and store the
result under `int(creature_id)` — whose failure on a non-numeric string id
is an uncaught exception aborting the whole request (`Except.error`). -/
def serverEvalStep (sigmoidF : ℚ → ℚ) (inits : PyKey → MLP3 × MLP3)
    (strToInt : String → Option Int) (acc : Registry × ResMap) (s : ServerSensor) :
    Except String (Registry × ResMap) :=
  match s.id with
  | none => Except.ok acc
  | some k =>
    match s.sensorValues with
    | none => Except.ok acc
    | some vals =>
      if vals.length ≠ STATE_DIM then Except.ok acc
      else
        let br := get_brain inits acc.1 k
        let action := Actor.forward sigmoidF br.1.actor vals
        match pyInt strToInt k with
        | none => Except.error "invalid literal for int"
        | some kk =>
          Except.ok (br.2,
            fun q => if q = kk then
              some ⟨action.getD 0 0, action.getD 1 0, action.getD 2 0⟩
            else acc.2 q)

/-- The Server `evaluate` branch: fold the entries over the registry and an
empty results dictionary; a normal return carries the `"ok"` status. -/
def serverEvaluate (sigmoidF : ℚ → ℚ) (inits : PyKey → MLP3 × MLP3)
    (strToInt : String → Option Int) (reg : Registry) (sensors : List ServerSensor) :
    Except String (Registry × ResMap) :=
  sensors.foldlM (serverEvalStep sigmoidF inits strToInt) (reg, fun _ => none)

/-- The brain an evaluate/train entry for key `k` operates on, given the
registry state when the entry is reached: the stored one, or a freshly
constructed one. -/
def brainFor (inits : PyKey → MLP3 × MLP3) (reg : Registry) (k : PyKey) : Brain :=
  match reg k with
  | some b => b
  | none => mkBrain (inits k).1 (inits k).2

/-! ## Small concrete instances used by the witnesses -/

/-- A degenerate `SimpleNet` (only its identity matters for the
wrong-length branch, which never reads the net). -/
def net0 : SimpleNet := ⟨⟨[], []⟩, ⟨[], []⟩, ⟨[], []⟩⟩

/-- An all-zero `SimpleNet` with the real Core topology. -/
def zeroSimpleNet : SimpleNet :=
  ⟨⟨List.replicate 12 (List.replicate 7 0), List.replicate 12 0⟩,
   ⟨List.replicate 12 (List.replicate 12 0), List.replicate 12 0⟩,
   ⟨List.replicate 6 (List.replicate 12 0), List.replicate 6 0⟩⟩

/-- An all-zero `MLP3` with the real `Actor` dimensions (25 → 128 → 128 → 3),
20227 scalar parameters in total. -/
def zeroActor : MLP3 :=
  ⟨⟨List.replicate 128 (List.replicate 25 0), List.replicate 128 0⟩,
   ⟨List.replicate 128 (List.replicate 128 0), List.replicate 128 0⟩,
   ⟨List.replicate 3 (List.replicate 128 0), List.replicate 3 0⟩⟩

/-- A one-scalar-per-tensor `MLP3`, total parameter count 6. -/
def tinyMLP : MLP3 := ⟨⟨[[0]], [0]⟩, ⟨[[0]], [0]⟩, ⟨[[0]], [0]⟩⟩

/-- A flat vector of 330 zeros. -/
def w330 : Vec := List.replicate 330 0

/-- The empty registry. -/
def regEmpty : Registry := fun _ => none

/-- A registry holding one brain under the integer key 0. -/
def regOne : Registry :=
  fun q => if q = PyKey.intK 0 then some (mkBrain tinyMLP tinyMLP) else none

/-- A fixed random-initialization draw for the witnesses. -/
def inits1 : PyKey → MLP3 × MLP3 := fun _ => (tinyMLP, tinyMLP)

/-- A flat vector exactly long enough for `tinyMLP`. -/
def wTiny : Vec := List.replicate 6 0

/-- An integer parse that reads every string as 5. -/
def strTo5 : String → Option Int := fun _ => some 5

/-- Identity activation stand-in for the witnesses. -/
def idQ : ℚ → ℚ := fun x => x

/-- A do-nothing optimizer step for the witnesses. -/
def stepId : MLP3 → MLP3 → MLP3 := fun p _ => p

/-- A brain whose replay buffer holds exactly `BATCH_SIZE` transitions. -/
def brain64 : Brain :=
  { actor := tinyMLP, critic := tinyMLP, actor_target := tinyMLP, critic_target := tinyMLP,
    replay_buffer := List.replicate 64 defaultTransition }

/-- A Core model cache holding `zeroSimpleNet` under the integer key 1. -/
def models1 : PyKey → Option SimpleNet :=
  fun k => if k = PyKey.intK 1 then some zeroSimpleNet else none

/-- A Core sensor entry carrying only an id — every sensor field missing. -/
def sensorOnlyId : CoreSensor :=
  ⟨some (PyKey.intK 1), none, none, none, none, none, none, none⟩

/-- A sigmoid stand-in: on the all-zero net every pre-activation is 0 and
the real sigmoid returns 1/2 there, so the constant 1/2 agrees with the
real activation at every point this development evaluates it. -/
def sigHalf : ℚ → ℚ := fun _ => 1 / 2

/-- A well-formed Server sensor entry for creature 1
(12 + (6 + 6) + 1 = 25 sensor scalars). -/
def goodSensor1 : ServerSensor :=
  ⟨some (PyKey.intK 1), some (List.replicate 12 0), some (List.replicate 6 0),
   some (List.replicate 6 0), some 0⟩

/-- A Server sensor entry for creature 2 with every sensor field missing. -/
def badSensor2 : ServerSensor := ⟨some (PyKey.intK 2), none, none, none, none⟩

/-- All parameters of a linear layer as one flat vector (weights row-major,
then biases). -/
def LinearQ.flatParams (l : LinearQ) : Vec := l.weight.flatten ++ l.bias

/-- All parameters of an `MLP3` as one flat vector, in `parameters()` order. -/
def MLP3.flatParams (A : MLP3) : Vec :=
  A.fc1.flatParams ++ (A.fc2.flatParams ++ A.out.flatParams)

/-- Two linear layers of identical tensor shapes. -/
def LinearQ.sameShape (a b : LinearQ) : Prop :=
  a.weight.map List.length = b.weight.map List.length ∧ a.bias.length = b.bias.length

/-- Two `MLP3`s of identical tensor shapes (as live nets and their target
copies always are). -/
def MLP3.sameShape (a b : MLP3) : Prop :=
  a.fc1.sameShape b.fc1 ∧ a.fc2.sameShape b.fc2 ∧ a.out.sameShape b.out

/-- The keys of the Server evaluate entries that produce a result (id
present, all sensor fields present, assembled vector of length
`STATE_DIM`). -/
def goodKeys (L : List ServerSensor) : List PyKey :=
  L.filterMap (fun s =>
    match s.id, s.sensorValues with
    | some k, some v => if v.length = STATE_DIM then some k else none
    | _, _ => none)

/-- The jet-force record the Server evaluate branch stores for a brain and
an assembled sensor vector. -/
def jetFor (sigmoidF : ℚ → ℚ) (b : Brain) (vals : Vec) : JetResult3 :=
  ⟨(Actor.forward sigmoidF b.actor vals).getD 0 0,
   (Actor.forward sigmoidF b.actor vals).getD 1 0,
   (Actor.forward sigmoidF b.actor vals).getD 2 0⟩

/-! ## Replay buffer (claim C5) -/

/-- Length after one push: grows by one until the capacity caps it. -/
lemma push_length (C : Nat) (buf : List Transition) (x : Transition) :
    (ReplayBuffer.push C buf x).length = min (buf.length + 1) C := by
  simp only [ReplayBuffer.push, List.length_drop, List.length_append, List.length_cons,
    List.length_nil]
  omega

/-- Folding pushes over a buffer that respects the capacity keeps exactly
the newest `C` of all elements seen, in order. -/
lemma foldl_push_eq (C : Nat) :
    ∀ (xs buf : List Transition), buf.length ≤ C →
      xs.foldl (ReplayBuffer.push C) buf = (buf ++ xs).drop ((buf ++ xs).length - C) := by
  intro xs
  induction xs with
  | nil =>
    intro buf h
    simp [Nat.sub_eq_zero_of_le h]
  | cons x xs ih =>
    intro buf h
    rw [List.foldl_cons, ih (ReplayBuffer.push C buf x) (by rw [push_length]; omega)]
    show ((buf ++ [x]).drop ((buf ++ [x]).length - C) ++ xs).drop _ = _
    rw [← List.drop_append_of_le_length (by simp), List.drop_drop]
    have harr : buf ++ [x] ++ xs = buf ++ x :: xs := by simp
    rw [harr]
    congr 1
    simp only [push_length, List.length_drop, List.length_append, List.length_cons,
      List.length_nil]
    omega

/-- C5: pushing C+1 transitions into an empty buffer of capacity C leaves
exactly the last C pushed transitions (the oldest single one evicted), and
the length of the buffer after any push sequence never exceeds C. -/
theorem replay_ring_semantics (C : Nat) (xs ys : List Transition) :
    (xs.length = C + 1 → xs.foldl (ReplayBuffer.push C) [] = xs.drop 1) ∧
    (ys.foldl (ReplayBuffer.push C) []).length ≤ C := by
  constructor
  · intro hlen
    rw [foldl_push_eq C xs [] (by simp)]
    simp [hlen]
  · rw [foldl_push_eq C ys [] (by simp)]
    simp only [List.nil_append, List.length_drop]
    omega

/-- Witness for C5 at C = 1 and concrete two-element and one-element push
sequences. -/
theorem replay_ring_semantics_witness :
    [defaultTransition, defaultTransition].foldl (ReplayBuffer.push 1) []
        = [defaultTransition, defaultTransition].drop 1 ∧
    ([defaultTransition].foldl (ReplayBuffer.push 1) []).length ≤ 1 :=
  ⟨(replay_ring_semantics 1 [defaultTransition, defaultTransition] [defaultTransition]).1 rfl,
   (replay_ring_semantics 1 [defaultTransition, defaultTransition] [defaultTransition]).2⟩

/-! ## Weight loading (claim C1) -/

/-- The `setParamsAux` walk raises a shape error exactly when the flat
vector is too short to cover all remaining parameters. -/
lemma setParamsAux_err_iff (flat : Vec) :
    ∀ (ps : List Vec) (ptr : Nat), ptr ≤ flat.length →
      ((setParamsAux flat ps ptr).2 = true ↔
        flat.length < ptr + (ps.map List.length).sum) := by
  intro ps
  induction ps with
  | nil =>
    intro ptr h
    simp only [setParamsAux, List.map_nil, List.sum_nil, Nat.add_zero, Bool.false_eq_true,
      false_iff]
    omega
  | cons p ps ih =>
    intro ptr h
    simp only [setParamsAux, List.map_cons, List.sum_cons]
    by_cases hs : (((flat.drop ptr).take p.length).length = p.length)
    · rw [if_pos hs]
      have hfit : ptr + p.length ≤ flat.length := by
        simp only [List.length_take, List.length_drop] at hs
        omega
      rw [ih (ptr + p.length) hfit]
      omega
    · rw [if_neg hs]
      simp only [List.length_take, List.length_drop] at hs
      constructor
      · intro _
        omega
      · intro _
        rfl

/-- Specialization to the loader: `set_actor_weights_from_flat_list`
raises exactly when the flat list is shorter than the parameter count. -/
lemma set_actor_weights_err_iff (A : MLP3) (flat : Vec) :
    (set_actor_weights_from_flat_list A flat).2 = true ↔ flat.length < A.totalNumel := by
  have h := setParamsAux_err_iff flat A.paramsFlatList 0 (Nat.zero_le _)
  simpa [set_actor_weights_from_flat_list, MLP3.totalNumel] using h

/-- Indexing into a row-major reshape. -/
lemma reshapeRows_getD (rows cols : Nat) (xs : Vec) (i j : Nat)
    (hi : i < rows) (hj : j < cols) :
    ((reshapeRows rows cols xs).getD i []).getD j 0 = xs.getD (i * cols + j) 0 := by
  have hrange : (reshapeRows rows cols xs).getD i [] = (xs.drop (i * cols)).take cols := by
    simp only [reshapeRows, List.getD_eq_getElem?_getD, List.getElem?_map, List.getElem?_range,
      hi, if_pos]
    rfl
  rw [hrange]
  simp only [List.getD_eq_getElem?_getD, List.getElem?_take, hj, if_pos, List.getElem?_drop]

/-- C1 (amended): the Core `load_genome_weights` validates first — a vector
whose length is not 330 raises a shape error and leaves every parameter of
the net unchanged, while a 330-vector is assigned layer-by-layer in fixed
order (each layer's weights row-major, then its biases, then the next
layer); the Server `set_actor_weights_from_flat_list` performs no length
validation — it raises a shape error exactly when the flat list is shorter
than the total parameter count, so an over-long vector is accepted
silently, and a too-short one raises only after mutating the parameters it
already covered. -/
theorem weight_loading_shape_contract (net net2 : SimpleNet) (w w2 : Vec) (A : MLP3) (flat : Vec) :
    (w.length ≠ 330 →
      net.load_genome_weights w = (net, some "ShapeMismatch: expected 330 weights")) ∧
    (w2.length = 330 →
      (net2.load_genome_weights w2).2 = none ∧
      (∀ i j, i < 12 → j < 7 →
        (((net2.load_genome_weights w2).1.fc1.weight.getD i []).getD j 0 = w2.getD (i * 7 + j) 0)) ∧
      (∀ j, j < 12 → ((net2.load_genome_weights w2).1.fc1.bias.getD j 0 = w2.getD (84 + j) 0)) ∧
      (∀ i j, i < 12 → j < 12 →
        (((net2.load_genome_weights w2).1.fc2.weight.getD i []).getD j 0
          = w2.getD (96 + (i * 12 + j)) 0)) ∧
      (∀ j, j < 12 → ((net2.load_genome_weights w2).1.fc2.bias.getD j 0 = w2.getD (240 + j) 0)) ∧
      (∀ i j, i < 6 → j < 12 →
        (((net2.load_genome_weights w2).1.fc3.weight.getD i []).getD j 0
          = w2.getD (252 + (i * 12 + j)) 0)) ∧
      (∀ j, j < 6 → ((net2.load_genome_weights w2).1.fc3.bias.getD j 0 = w2.getD (324 + j) 0))) ∧
    ((set_actor_weights_from_flat_list A flat).2 = true ↔ flat.length < A.totalNumel) := by
  refine ⟨fun hne => by simp [SimpleNet.load_genome_weights, hne], fun hlen => ?_,
    set_actor_weights_err_iff A flat⟩
  have hload : net2.load_genome_weights w2 =
      ({ fc1 := ⟨reshapeRows 12 7 ((w2.take 96).take 84), (w2.take 96).drop 84⟩,
         fc2 := ⟨reshapeRows 12 12 (((w2.drop 96).take 156).take 144),
                 ((w2.drop 96).take 156).drop 144⟩,
         fc3 := ⟨reshapeRows 6 12 ((w2.drop 252).take 72), ((w2.drop 252).drop 72).take 6⟩ },
       none) := by
    simp [SimpleNet.load_genome_weights, hlen]
  have t1 : (w2.take 96).take 84 = w2.take 84 := by
    rw [List.take_take]
    norm_num
  have t2 : ((w2.drop 96).take 156).take 144 = (w2.drop 96).take 144 := by
    rw [List.take_take]
    norm_num
  refine ⟨by rw [hload], ?_, ?_, ?_, ?_, ?_, ?_⟩
  · intro i j hi hj
    rw [hload]
    show ((reshapeRows 12 7 ((w2.take 96).take 84)).getD i []).getD j 0 = _
    rw [t1, reshapeRows_getD 12 7 _ i j hi hj]
    have h1 : i * 7 + j < 84 := by omega
    simp only [List.getD_eq_getElem?_getD, List.getElem?_take, h1, if_pos]
  · intro j hj
    rw [hload]
    show ((w2.take 96).drop 84).getD j 0 = _
    have h1 : 84 + j < 96 := by omega
    simp only [List.getD_eq_getElem?_getD, List.getElem?_drop, List.getElem?_take, h1, if_pos]
  · intro i j hi hj
    rw [hload]
    show ((reshapeRows 12 12 (((w2.drop 96).take 156).take 144)).getD i []).getD j 0 = _
    rw [t2, reshapeRows_getD 12 12 _ i j hi hj]
    have h1 : i * 12 + j < 144 := by omega
    simp only [List.getD_eq_getElem?_getD, List.getElem?_take, h1, if_pos, List.getElem?_drop]
  · intro j hj
    rw [hload]
    show (((w2.drop 96).take 156).drop 144).getD j 0 = _
    have h1 : 144 + j < 156 := by omega
    have h2 : 96 + (144 + j) = 240 + j := by omega
    simp only [List.getD_eq_getElem?_getD, List.getElem?_drop, List.getElem?_take, h1, if_pos,
      h2]
  · intro i j hi hj
    rw [hload]
    show ((reshapeRows 6 12 ((w2.drop 252).take 72)).getD i []).getD j 0 = _
    rw [reshapeRows_getD 6 12 _ i j hi hj]
    have h1 : i * 12 + j < 72 := by omega
    simp only [List.getD_eq_getElem?_getD, List.getElem?_take, h1, if_pos, List.getElem?_drop]
  · intro j hj
    rw [hload]
    show (((w2.drop 252).drop 72).take 6).getD j 0 = _
    have h2 : 252 + (72 + j) = 324 + j := by omega
    simp only [List.getD_eq_getElem?_getD, List.getElem?_take, hj, if_pos, List.getElem?_drop,
      h2]

/-- One successful step of the pointer walk. -/
lemma setParamsAux_cons_ok (flat p : Vec) (ps : List Vec) (ptr : Nat)
    (h : ((flat.drop ptr).take p.length).length = p.length) :
    setParamsAux flat (p :: ps) ptr =
      ((flat.drop ptr).take p.length :: (setParamsAux flat ps (ptr + p.length)).1,
       (setParamsAux flat ps (ptr + p.length)).2) := by
  simp only [setParamsAux]
  rw [if_pos h]

/-- One failing step of the pointer walk: the remaining parameters are
left untouched. -/
lemma setParamsAux_cons_err (flat p : Vec) (ps : List Vec) (ptr : Nat)
    (h : ¬((flat.drop ptr).take p.length).length = p.length) :
    setParamsAux flat (p :: ps) ptr = (p :: ps, true) := by
  simp only [setParamsAux]
  rw [if_neg h]

/-- The fc1 bias produced by the loader is slot 1 of the pointer walk. -/
lemma set_actor_weights_fc1_bias (A : MLP3) (flat : Vec) :
    (set_actor_weights_from_flat_list A flat).1.fc1.bias
      = (setParamsAux flat A.paramsFlatList 0).1.getD 1 [] := rfl

/-- The parameter count of the real `Actor`. -/
lemma zeroActor_totalNumel : zeroActor.totalNumel = 20227 := by
  simp only [zeroActor, MLP3.totalNumel, MLP3.paramsFlatList, List.length_flatten,
    List.map_replicate, List.length_replicate, List.sum_replicate, smul_eq_mul,
    List.map_cons, List.map_nil, List.sum_cons, List.sum_nil]
  norm_num

/-- C1 (counterexample): the claim states that loading a flat vector whose
length differs from the parameter count always fails with a shape error
and never partially mutates the network; on the Server loader both parts
fail.  A vector of 20228 entries (one more than the Actor's 20227) loads
without any error, and a vector of 3328 entries raises — but only after
overwriting fc1's weights and biases (fc1.bias becomes all ones instead of
its previous all-zero value). -/
theorem weight_loading_no_validation_cex :
    (set_actor_weights_from_flat_list zeroActor (List.replicate 20228 0)).2 = false ∧
    (List.replicate 20228 (0 : ℚ)).length ≠ zeroActor.totalNumel ∧
    (set_actor_weights_from_flat_list zeroActor (List.replicate 3328 1)).2 = true ∧
    (set_actor_weights_from_flat_list zeroActor (List.replicate 3328 1)).1.fc1.bias
      ≠ zeroActor.fc1.bias := by
  have hlen1 : (List.replicate 20228 (0 : ℚ)).length = 20228 := by
    simp only [List.length_replicate]
  refine ⟨?_, ?_, ?_, ?_⟩
  · rw [← Bool.not_eq_true, set_actor_weights_err_iff, zeroActor_totalNumel, hlen1]
    norm_num
  · rw [hlen1, zeroActor_totalNumel]
    norm_num
  · rw [set_actor_weights_err_iff, zeroActor_totalNumel]
    simp only [List.length_replicate]
    norm_num
  · have hparams : zeroActor.paramsFlatList =
        [(List.replicate 128 (List.replicate 25 (0 : ℚ))).flatten, List.replicate 128 0,
         (List.replicate 128 (List.replicate 128 (0 : ℚ))).flatten, List.replicate 128 0,
         (List.replicate 3 (List.replicate 128 (0 : ℚ))).flatten, List.replicate 3 0] := by
      simp only [zeroActor, MLP3.paramsFlatList]
    have hl0 : ((List.replicate 128 (List.replicate 25 (0 : ℚ))).flatten).length = 3200 := by
      simp only [List.length_flatten, List.map_replicate, List.length_replicate,
        List.sum_replicate, smul_eq_mul]
    have hl2 : ((List.replicate 128 (List.replicate 128 (0 : ℚ))).flatten).length = 16384 := by
      simp only [List.length_flatten, List.map_replicate, List.length_replicate,
        List.sum_replicate, smul_eq_mul]
    have step0 := setParamsAux_cons_ok (List.replicate 3328 (1 : ℚ))
      ((List.replicate 128 (List.replicate 25 (0 : ℚ))).flatten)
      [List.replicate 128 0, (List.replicate 128 (List.replicate 128 (0 : ℚ))).flatten,
       List.replicate 128 0, (List.replicate 3 (List.replicate 128 (0 : ℚ))).flatten,
       List.replicate 3 0] 0
      (by rw [hl0]; simp only [List.length_take, List.length_drop, List.length_replicate]; omega)
    have step1 := setParamsAux_cons_ok (List.replicate 3328 (1 : ℚ))
      (List.replicate 128 (0 : ℚ))
      [(List.replicate 128 (List.replicate 128 (0 : ℚ))).flatten, List.replicate 128 0,
       (List.replicate 3 (List.replicate 128 (0 : ℚ))).flatten, List.replicate 3 0]
      (0 + ((List.replicate 128 (List.replicate 25 (0 : ℚ))).flatten).length)
      (by rw [hl0]
          simp only [List.length_take, List.length_drop, List.length_replicate]
          omega)
    have step2 := setParamsAux_cons_err (List.replicate 3328 (1 : ℚ))
      ((List.replicate 128 (List.replicate 128 (0 : ℚ))).flatten)
      [List.replicate 128 0, (List.replicate 3 (List.replicate 128 (0 : ℚ))).flatten,
       List.replicate 3 0]
      (0 + ((List.replicate 128 (List.replicate 25 (0 : ℚ))).flatten).length +
        (List.replicate 128 (0 : ℚ)).length)
      (by rw [hl0, hl2]
          simp only [List.length_take, List.length_drop, List.length_replicate]
          omega)
    have hbias :
        (set_actor_weights_from_flat_list zeroActor (List.replicate 3328 1)).1.fc1.bias
          = ((List.replicate 3328 (1 : ℚ)).drop
              (0 + ((List.replicate 128 (List.replicate 25 (0 : ℚ))).flatten).length)).take
              (List.replicate 128 (0 : ℚ)).length := by
      rw [set_actor_weights_fc1_bias, hparams, step0, step1, step2]
      simp only [List.getD_cons_succ, List.getD_cons_zero]
    rw [hbias, hl0]
    simp only [List.length_replicate, List.drop_replicate, List.take_replicate]
    have harith : min 128 (3328 - (0 + 3200)) = 128 := by omega
    rw [harith]
    show List.replicate 128 (1 : ℚ) ≠ List.replicate 128 0
    decide

/-- Witness for the amended C1 theorem: the empty vector is rejected by the
Core loader, element (0,0) of fc1 of a loaded 330-zero genome comes from
position 0 of the genome, and the Server loader's failure condition is the
too-short condition at a tiny network. -/
theorem weight_loading_shape_contract_witness :
    net0.load_genome_weights [] = (net0, some "ShapeMismatch: expected 330 weights") ∧
    ((net0.load_genome_weights w330).1.fc1.weight.getD 0 []).getD 0 0 = w330.getD (0 * 7 + 0) 0 ∧
    ((set_actor_weights_from_flat_list tinyMLP []).2 = true ↔
      (List.length ([] : Vec)) < tinyMLP.totalNumel) :=
  ⟨(weight_loading_shape_contract net0 net0 [] w330 tinyMLP []).1 (by simp),
   ((weight_loading_shape_contract net0 net0 [] w330 tinyMLP []).2.1
      (by simp only [w330, List.length_replicate])).2.1 0 0 (by omega) (by omega),
   (weight_loading_shape_contract net0 net0 [] w330 tinyMLP []).2.2⟩

/-! ## Registry semantics (claims C2 and C9) -/

/-- C2: `get_brain` returns the stored brain unchanged when the id is
present, otherwise inserts (and returns) a freshly constructed brain whose
target networks are exact copies of its freshly initialized live networks;
the `init` command always constructs a new brain, stores it (overwriting
whatever the registry held for that integer id), and loads the flat
weights into the actor only — critic and both targets stay exactly as
constructed. -/
theorem registry_get_or_create_and_replace
    (inits : PyKey → MLP3 × MLP3) (reg : Registry) (k : PyKey) (bex : Brain)
    (n : Int) (w : Vec) (a c : MLP3) (strTo : String → Option Int) :
    (reg k = some bex → get_brain inits reg k = (bex, reg)) ∧
    (reg k = none →
      get_brain inits reg k =
        (mkBrain (inits k).1 (inits k).2,
         fun q => if q = k then some (mkBrain (inits k).1 (inits k).2) else reg q)) ∧
    ((mkBrain a c).actor_target = (mkBrain a c).actor ∧
     (mkBrain a c).critic_target = (mkBrain a c).critic ∧
     (mkBrain a c).actor = a ∧ (mkBrain a c).critic = c) ∧
    ((set_actor_weights_from_flat_list a w).2 = false →
      (processInit strTo reg (PyKey.intK n) w a c).2 = true ∧
      (processInit strTo reg (PyKey.intK n) w a c).1 (PyKey.intK n)
        = some { mkBrain a c with actor := (set_actor_weights_from_flat_list a w).1 } ∧
      ({ mkBrain a c with
          actor := (set_actor_weights_from_flat_list a w).1 } : Brain).critic = c ∧
      ({ mkBrain a c with
          actor := (set_actor_weights_from_flat_list a w).1 } : Brain).actor_target = a ∧
      ({ mkBrain a c with
          actor := (set_actor_weights_from_flat_list a w).1 } : Brain).critic_target = c ∧
      (∀ q, q ≠ PyKey.intK n → (processInit strTo reg (PyKey.intK n) w a c).1 q = reg q)) := by
  refine ⟨fun h => by simp only [get_brain, h], fun h => by simp only [get_brain, h],
    ⟨rfl, rfl, rfl, rfl⟩, fun herr => ?_⟩
  have hpi : processInit strTo reg (PyKey.intK n) w a c
      = ((fun q => if q = PyKey.intK n then
            some { mkBrain a c with actor := (set_actor_weights_from_flat_list a w).1 }
          else reg q), true) := by
    simp only [processInit, herr, Bool.false_eq_true, if_false, pyInt]
  rw [hpi]
  exact ⟨rfl, by simp, rfl, rfl, rfl, fun q hq => by simp [hq]⟩

/-- Witness for C2 at concrete instances: a hit on a one-entry registry, a
miss on the empty registry, and an `init` overwriting the occupied slot 0. -/
theorem registry_get_or_create_and_replace_witness :
    get_brain inits1 regOne (PyKey.intK 0) = (mkBrain tinyMLP tinyMLP, regOne) ∧
    get_brain inits1 regEmpty (PyKey.intK 0)
      = (mkBrain (inits1 (PyKey.intK 0)).1 (inits1 (PyKey.intK 0)).2,
         fun q => if q = PyKey.intK 0 then
           some (mkBrain (inits1 (PyKey.intK 0)).1 (inits1 (PyKey.intK 0)).2)
         else regEmpty q) ∧
    (processInit strTo5 regOne (PyKey.intK 0) wTiny tinyMLP tinyMLP).2 = true ∧
    (processInit strTo5 regOne (PyKey.intK 0) wTiny tinyMLP tinyMLP).1 (PyKey.intK 0)
      = some { mkBrain tinyMLP tinyMLP with
                actor := (set_actor_weights_from_flat_list tinyMLP wTiny).1 } :=
  ⟨(registry_get_or_create_and_replace inits1 regOne (PyKey.intK 0) (mkBrain tinyMLP tinyMLP)
      0 wTiny tinyMLP tinyMLP strTo5).1 (by decide),
   (registry_get_or_create_and_replace inits1 regEmpty (PyKey.intK 0) (mkBrain tinyMLP tinyMLP)
      0 wTiny tinyMLP tinyMLP strTo5).2.1 rfl,
   ((registry_get_or_create_and_replace inits1 regOne (PyKey.intK 0) (mkBrain tinyMLP tinyMLP)
      0 wTiny tinyMLP tinyMLP strTo5).2.2.2 (by decide)).1,
   ((registry_get_or_create_and_replace inits1 regOne (PyKey.intK 0) (mkBrain tinyMLP tinyMLP)
      0 wTiny tinyMLP tinyMLP strTo5).2.2.2 (by decide)).2.1⟩

/-- C9: the Server `init` branch stores the new brain under `int(id)` while
`get_brain` (used by evaluate and train) looks up the raw id, so for a
string id the stored brain is invisible: the registry entry at the raw id
is untouched by `init`, the new brain sits under the integer key, and an
evaluate/train on a previously unseen string id operates on a freshly
created brain, not on the one `init` stored. -/
theorem init_stores_under_int_key (strTo : String → Option Int) (s : String) (n : Int)
    (reg : Registry) (w : Vec) (a c : MLP3) (inits : PyKey → MLP3 × MLP3)
    (hs : strTo s = some n)
    (herr : (set_actor_weights_from_flat_list a w).2 = false) :
    (processInit strTo reg (PyKey.strK s) w a c).2 = true ∧
    (processInit strTo reg (PyKey.strK s) w a c).1 (PyKey.strK s) = reg (PyKey.strK s) ∧
    (processInit strTo reg (PyKey.strK s) w a c).1 (PyKey.intK n)
      = some { mkBrain a c with actor := (set_actor_weights_from_flat_list a w).1 } ∧
    (reg (PyKey.strK s) = none →
      (get_brain inits (processInit strTo reg (PyKey.strK s) w a c).1 (PyKey.strK s)).1
        = mkBrain (inits (PyKey.strK s)).1 (inits (PyKey.strK s)).2) := by
  have hpi : processInit strTo reg (PyKey.strK s) w a c
      = ((fun q => if q = PyKey.intK n then
            some { mkBrain a c with actor := (set_actor_weights_from_flat_list a w).1 }
          else reg q), true) := by
    simp only [processInit, herr, Bool.false_eq_true, if_false, pyInt, hs, Option.map_some']
  rw [hpi]
  refine ⟨rfl, by simp, by simp, fun hmiss => ?_⟩
  have hlook : (fun q => if q = PyKey.intK n then
      some { mkBrain a c with actor := (set_actor_weights_from_flat_list a w).1 }
    else reg q) (PyKey.strK s) = none := by simp [hmiss]
  simp only [get_brain, hlook]

/-- Witness for C9: after `init` with the string id "5" on the empty
registry, evaluate/train on "5" gets a brand-new brain. -/
theorem init_stores_under_int_key_witness :
    (processInit strTo5 regEmpty (PyKey.strK "5") wTiny tinyMLP tinyMLP).2 = true ∧
    (processInit strTo5 regEmpty (PyKey.strK "5") wTiny tinyMLP tinyMLP).1 (PyKey.strK "5")
      = regEmpty (PyKey.strK "5") ∧
    (processInit strTo5 regEmpty (PyKey.strK "5") wTiny tinyMLP tinyMLP).1 (PyKey.intK 5)
      = some { mkBrain tinyMLP tinyMLP with
                actor := (set_actor_weights_from_flat_list tinyMLP wTiny).1 } ∧
    (get_brain inits1
        (processInit strTo5 regEmpty (PyKey.strK "5") wTiny tinyMLP tinyMLP).1
        (PyKey.strK "5")).1
      = mkBrain (inits1 (PyKey.strK "5")).1 (inits1 (PyKey.strK "5")).2 := by
  have h := init_stores_under_int_key strTo5 "5" 5 regEmpty wTiny tinyMLP tinyMLP inits1
    rfl (by decide)
  exact ⟨h.1, h.2.1, h.2.2.1, h.2.2.2 rfl⟩

/-! ## The training step (claims C3, C4, C6, C7) -/

/-- Full-run equation for `Brain.train_step` when the buffer is large
enough: the sampled batch, losses, updated live nets, and soft-updated
target nets, all at once. -/
lemma train_step_run (sigmoidF : ℚ → ℚ) (sel : List Nat)
    (stepC stepA : MLP3 → MLP3 → MLP3) (gC gA : MLP3) (b : Brain)
    (h : ¬ b.replay_buffer.length < BATCH_SIZE) :
    Brain.train_step sigmoidF sel stepC stepA gC gA b = some
      ({ b with
          actor := stepA b.actor gA,
          critic := stepC b.critic gC,
          actor_target := softUpdateMLP TAU b.actor_target (stepA b.actor gA),
          critic_target := softUpdateMLP TAU b.critic_target (stepC b.critic gC) },
       - mean ((ReplayBuffer.sample b.replay_buffer sel).map (fun tr =>
           (Critic.forward (stepC b.critic gC) tr.state
             (Actor.forward sigmoidF b.actor tr.state)).headD 0)),
       mseLoss ((ReplayBuffer.sample b.replay_buffer sel).map
           (fun tr => (Critic.forward b.critic tr.state tr.action).headD 0))
         ((ReplayBuffer.sample b.replay_buffer sel).map (b.targetY sigmoidF))) := by
  simp only [Brain.train_step, if_neg h]

/-- C3: in every executed training step the critic regression target is
`y = reward + γ·(1−done)·critic_target(next_state, actor_target(next_state))`
with `done` entering as a 0/1 multiplicand, and the target networks are
never gradient-updated — after the step they are exactly the soft-update
blend of their previous values with the new live networks (the `gC`/`gA`
gradients reach only the live nets). -/
theorem train_step_critic_target_formula (sigmoidF : ℚ → ℚ) (sel : List Nat)
    (stepC stepA : MLP3 → MLP3 → MLP3) (gC gA : MLP3) (b : Brain)
    (h : BATCH_SIZE ≤ b.replay_buffer.length) :
    ∃ b1 aL cL, Brain.train_step sigmoidF sel stepC stepA gC gA b = some (b1, aL, cL) ∧
      (∀ tr : Transition, b.targetY sigmoidF tr
        = tr.reward + GAMMA * (1 - (if tr.done then (1 : ℚ) else 0)) *
          ((Critic.forward b.critic_target tr.next_state
              (Actor.forward sigmoidF b.actor_target tr.next_state)).headD 0)) ∧
      b1.actor_target = softUpdateMLP TAU b.actor_target b1.actor ∧
      b1.critic_target = softUpdateMLP TAU b.critic_target b1.critic := by
  rw [train_step_run sigmoidF sel stepC stepA gC gA b (not_lt.mpr h)]
  exact ⟨_, _, _, rfl, fun tr => rfl, rfl, rfl⟩

/-- Witness for C3 at a concrete brain with a full buffer. -/
theorem train_step_critic_target_formula_witness :
    ∃ b1 aL cL, Brain.train_step idQ [] stepId stepId tinyMLP tinyMLP brain64
        = some (b1, aL, cL) ∧
      (∀ tr : Transition, brain64.targetY idQ tr
        = tr.reward + GAMMA * (1 - (if tr.done then (1 : ℚ) else 0)) *
          ((Critic.forward brain64.critic_target tr.next_state
              (Actor.forward idQ brain64.actor_target tr.next_state)).headD 0)) ∧
      b1.actor_target = softUpdateMLP TAU brain64.actor_target b1.actor ∧
      b1.critic_target = softUpdateMLP TAU brain64.critic_target b1.critic :=
  train_step_critic_target_formula idQ [] stepId stepId tinyMLP tinyMLP brain64 (by decide)

/-- C4: the actor update (the second backward pass and
`optimizer_actor.step()`) does not alter the critic: the critic returned by
`train_step` is exactly the result of the critic update of step 3, and it
is the same whatever actor-side update function and gradient are used. -/
theorem actor_update_preserves_critic (sigmoidF : ℚ → ℚ) (sel : List Nat)
    (stepC stepA stepA2 : MLP3 → MLP3 → MLP3) (gC gA gA2 : MLP3) (b : Brain)
    (h : BATCH_SIZE ≤ b.replay_buffer.length) :
    ∃ b1 aL cL, Brain.train_step sigmoidF sel stepC stepA gC gA b = some (b1, aL, cL) ∧
      b1.critic = stepC b.critic gC ∧
      (∃ b2 aL2 cL2, Brain.train_step sigmoidF sel stepC stepA2 gC gA2 b
          = some (b2, aL2, cL2) ∧ b2.critic = b1.critic) := by
  rw [train_step_run sigmoidF sel stepC stepA gC gA b (not_lt.mpr h),
    train_step_run sigmoidF sel stepC stepA2 gC gA2 b (not_lt.mpr h)]
  exact ⟨_, _, _, rfl, rfl, _, _, _, rfl, rfl⟩

/-- Witness for C4 with two different actor updates on the same brain. -/
theorem actor_update_preserves_critic_witness :
    ∃ b1 aL cL, Brain.train_step idQ [] stepId stepId tinyMLP tinyMLP brain64
        = some (b1, aL, cL) ∧
      b1.critic = stepId brain64.critic tinyMLP ∧
      (∃ b2 aL2 cL2, Brain.train_step idQ [] stepId (fun _ g => g) tinyMLP zeroActor brain64
          = some (b2, aL2, cL2) ∧ b2.critic = b1.critic) :=
  actor_update_preserves_critic idQ [] stepId stepId (fun _ g => g) tinyMLP tinyMLP zeroActor
    brain64 (by decide)

/-- C6: `train_step` returns the no-op signal `none` exactly when the
buffer holds fewer than `BATCH_SIZE` transitions; otherwise, with the
positions chosen per `random.sample`'s contract (distinct, `min batch_size
len` of them), it samples exactly `BATCH_SIZE` transitions within the one
sample and returns the actor and critic losses. -/
theorem train_step_noop_iff (sigmoidF : ℚ → ℚ) (sel : List Nat)
    (stepC stepA : MLP3 → MLP3 → MLP3) (gC gA : MLP3) (b : Brain) :
    (Brain.train_step sigmoidF sel stepC stepA gC gA b = none ↔
      b.replay_buffer.length < BATCH_SIZE) ∧
    (sel.Nodup → sel.length = min BATCH_SIZE b.replay_buffer.length →
      BATCH_SIZE ≤ b.replay_buffer.length →
      (ReplayBuffer.sample b.replay_buffer sel).length = BATCH_SIZE ∧
      ∃ b1 aL cL, Brain.train_step sigmoidF sel stepC stepA gC gA b = some (b1, aL, cL)) := by
  constructor
  · by_cases hlt : b.replay_buffer.length < BATCH_SIZE
    · simp only [Brain.train_step, if_pos hlt]
      exact ⟨fun _ => hlt, fun _ => trivial⟩
    · rw [train_step_run sigmoidF sel stepC stepA gC gA b hlt]
      simp only [reduceCtorEq, false_iff]
      exact hlt
  · intro _ hlen hge
    refine ⟨?_, _, _, _, train_step_run sigmoidF sel stepC stepA gC gA b (not_lt.mpr hge)⟩
    rw [ReplayBuffer.sample, List.length_map, hlen]
    exact Nat.min_eq_left hge

/-- Witness for C6 at a full buffer with the 64 distinct positions 0..63. -/
theorem train_step_noop_iff_witness :
    (Brain.train_step idQ (List.range 64) stepId stepId tinyMLP tinyMLP brain64 = none ↔
      brain64.replay_buffer.length < BATCH_SIZE) ∧
    ((ReplayBuffer.sample brain64.replay_buffer (List.range 64)).length = BATCH_SIZE ∧
      ∃ b1 aL cL, Brain.train_step idQ (List.range 64) stepId stepId tinyMLP tinyMLP brain64
          = some (b1, aL, cL)) :=
  ⟨(train_step_noop_iff idQ (List.range 64) stepId stepId tinyMLP tinyMLP brain64).1,
   (train_step_noop_iff idQ (List.range 64) stepId stepId tinyMLP tinyMLP brain64).2
     (List.nodup_range 64) (by decide) (by decide)⟩

/-- Flattening commutes with elementwise combination of matrices of equal
row structure. -/
lemma flatten_matZip (f : ℚ → ℚ → ℚ) :
    ∀ (a b : List Vec), a.map List.length = b.map List.length →
      (matZip f a b).flatten = List.zipWith f a.flatten b.flatten := by
  intro a
  induction a with
  | nil =>
    intro b h
    cases b with
    | nil => rfl
    | cons rb bs => simp at h
  | cons ra as ih =>
    intro b h
    cases b with
    | nil => simp at h
    | cons rb bs =>
      simp only [List.map_cons, List.cons.injEq] at h
      obtain ⟨h1, h2⟩ := h
      show (List.zipWith f ra rb :: matZip f as bs).flatten = _
      rw [List.flatten_cons, ih bs h2, List.flatten_cons, List.flatten_cons,
        List.zipWith_append f ra as.flatten rb bs.flatten h1]

/-- Equal-shaped linear layers have equally long flat parameter vectors. -/
lemma lin_flat_length (a b : LinearQ) (h : a.sameShape b) :
    a.flatParams.length = b.flatParams.length := by
  obtain ⟨hw, hb⟩ := h
  simp only [LinearQ.flatParams, List.length_append, List.length_flatten, hw, hb]

/-- Elementwise combination then flattening, on a linear layer. -/
lemma lin_flat_zip (f : ℚ → ℚ → ℚ) (a b : LinearQ) (h : a.sameShape b) :
    (a.zipParams f b).flatParams = List.zipWith f a.flatParams b.flatParams := by
  obtain ⟨hw, hb⟩ := h
  have hlen : a.weight.flatten.length = b.weight.flatten.length := by
    rw [List.length_flatten, List.length_flatten, hw]
  simp only [LinearQ.zipParams, LinearQ.flatParams]
  rw [flatten_matZip f a.weight b.weight hw,
    List.zipWith_append f a.weight.flatten a.bias b.weight.flatten b.bias hlen]

/-- Elementwise combination then flattening, on a whole `MLP3`. -/
lemma mlp_flat_zip (f : ℚ → ℚ → ℚ) (a b : MLP3) (h : a.sameShape b) :
    (a.zipParams f b).flatParams = List.zipWith f a.flatParams b.flatParams := by
  obtain ⟨h1, h2, h3⟩ := h
  simp only [MLP3.zipParams, MLP3.flatParams]
  rw [lin_flat_zip f _ _ h1, lin_flat_zip f _ _ h2, lin_flat_zip f _ _ h3,
    List.zipWith_append f _ _ _ _ (lin_flat_length _ _ h1),
    List.zipWith_append f _ _ _ _ (lin_flat_length _ _ h2)]

/-- `getD` through `zipWith` at a valid index. -/
lemma zipWith_getD (f : ℚ → ℚ → ℚ) (xs ys : Vec) (i : Nat)
    (h : i < (List.zipWith f xs ys).length) :
    (List.zipWith f xs ys).getD i 0 = f (xs.getD i 0) (ys.getD i 0) := by
  have hx : i < xs.length := by
    simp only [List.length_zipWith] at h
    omega
  have hy : i < ys.length := by
    simp only [List.length_zipWith] at h
    omega
  rw [List.getD_eq_getElem?_getD, List.getD_eq_getElem?_getD, List.getD_eq_getElem?_getD,
    List.getElem?_eq_getElem h, List.getElem?_eq_getElem hx, List.getElem?_eq_getElem hy]
  simp [List.getElem_zipWith]

/-- The convex blend with rate τ ∈ (0,1) stays on the segment between its
endpoints. -/
lemma blend_bound_generic (tau t p : ℚ) (h0 : 0 < tau) (h1 : tau < 1) :
    min t p ≤ t * (1 - tau) + p * tau ∧ t * (1 - tau) + p * tau ≤ max t p := by
  rcases le_total t p with h | h
  · rw [min_eq_left h, max_eq_right h]
    constructor <;> nlinarith
  · rw [min_eq_right h, max_eq_left h]
    constructor <;> nlinarith

/-- C7: one executed training step soft-updates both target networks by
`target ← target·(1−τ) + live·τ` elementwise over every weight and bias,
and since `TAU = 0.005 ∈ (0,1)` every resulting target parameter lies on
the segment between its previous value and the corresponding (updated)
live parameter; the segment bound holds for any rate τ ∈ (0,1). -/
theorem soft_update_segment (sigmoidF : ℚ → ℚ) (sel : List Nat)
    (stepC stepA : MLP3 → MLP3 → MLP3) (gC gA : MLP3) (b : Brain)
    (h : BATCH_SIZE ≤ b.replay_buffer.length)
    (hA : b.actor_target.sameShape (stepA b.actor gA))
    (hC : b.critic_target.sameShape (stepC b.critic gC)) :
    ∃ b1 aL cL, Brain.train_step sigmoidF sel stepC stepA gC gA b = some (b1, aL, cL) ∧
      b1.actor_target = softUpdateMLP TAU b.actor_target b1.actor ∧
      b1.critic_target = softUpdateMLP TAU b.critic_target b1.critic ∧
      (∀ i, i < b1.actor_target.flatParams.length →
        min (b.actor_target.flatParams.getD i 0) (b1.actor.flatParams.getD i 0)
            ≤ b1.actor_target.flatParams.getD i 0 ∧
        b1.actor_target.flatParams.getD i 0
            ≤ max (b.actor_target.flatParams.getD i 0) (b1.actor.flatParams.getD i 0)) ∧
      (∀ i, i < b1.critic_target.flatParams.length →
        min (b.critic_target.flatParams.getD i 0) (b1.critic.flatParams.getD i 0)
            ≤ b1.critic_target.flatParams.getD i 0 ∧
        b1.critic_target.flatParams.getD i 0
            ≤ max (b.critic_target.flatParams.getD i 0) (b1.critic.flatParams.getD i 0)) ∧
      (∀ tau t p : ℚ, 0 < tau → tau < 1 →
        min t p ≤ t * (1 - tau) + p * tau ∧ t * (1 - tau) + p * tau ≤ max t p) := by
  have htau0 : (0 : ℚ) < TAU := by norm_num [TAU]
  have htau1 : TAU < 1 := by norm_num [TAU]
  rw [train_step_run sigmoidF sel stepC stepA gC gA b (not_lt.mpr h)]
  refine ⟨_, _, _, rfl, rfl, rfl, ?_, ?_, fun tau t p h0 h1 => blend_bound_generic tau t p h0 h1⟩
  · intro i hi
    simp only [softUpdateMLP] at hi ⊢
    rw [mlp_flat_zip _ _ _ hA] at hi ⊢
    rw [zipWith_getD _ _ _ i hi]
    exact blend_bound_generic TAU _ _ htau0 htau1
  · intro i hi
    simp only [softUpdateMLP] at hi ⊢
    rw [mlp_flat_zip _ _ _ hC] at hi ⊢
    rw [zipWith_getD _ _ _ i hi]
    exact blend_bound_generic TAU _ _ htau0 htau1

/-- Witness for C7 at a concrete brain and identity optimizer steps. -/
theorem soft_update_segment_witness :
    ∃ b1 aL cL, Brain.train_step idQ [] stepId stepId tinyMLP tinyMLP brain64
        = some (b1, aL, cL) ∧
      b1.actor_target = softUpdateMLP TAU brain64.actor_target b1.actor ∧
      b1.critic_target = softUpdateMLP TAU brain64.critic_target b1.critic ∧
      (∀ i, i < b1.actor_target.flatParams.length →
        min (brain64.actor_target.flatParams.getD i 0) (b1.actor.flatParams.getD i 0)
            ≤ b1.actor_target.flatParams.getD i 0 ∧
        b1.actor_target.flatParams.getD i 0
            ≤ max (brain64.actor_target.flatParams.getD i 0) (b1.actor.flatParams.getD i 0)) ∧
      (∀ i, i < b1.critic_target.flatParams.length →
        min (brain64.critic_target.flatParams.getD i 0) (b1.critic.flatParams.getD i 0)
            ≤ b1.critic_target.flatParams.getD i 0 ∧
        b1.critic_target.flatParams.getD i 0
            ≤ max (brain64.critic_target.flatParams.getD i 0) (b1.critic.flatParams.getD i 0)) ∧
      (∀ tau t p : ℚ, 0 < tau → tau < 1 →
        min t p ≤ t * (1 - tau) + p * tau ∧ t * (1 - tau) + p * tau ≤ max t p) :=
  soft_update_segment idQ [] stepId stepId tinyMLP tinyMLP brain64 (by decide)
    (by exact ⟨⟨rfl, rfl⟩, ⟨rfl, rfl⟩, ⟨rfl, rfl⟩⟩) (by exact ⟨⟨rfl, rfl⟩, ⟨rfl, rfl⟩, ⟨rfl, rfl⟩⟩)

/-! ## Evaluate-batch behavior (claims C8 and C10) -/

/-- `get_brain` returns `brainFor`. -/
lemma get_brain_fst (inits : PyKey → MLP3 × MLP3) (reg : Registry) (k : PyKey) :
    (get_brain inits reg k).1 = brainFor inits reg k := by
  cases h : reg k <;> simp [get_brain, brainFor, h]

/-- `get_brain` changes the registry only at its own key. -/
lemma get_brain_snd_ne (inits : PyKey → MLP3 × MLP3) (reg : Registry) (k q : PyKey)
    (hq : q ≠ k) : (get_brain inits reg k).2 q = reg q := by
  cases h : reg k
  · simp [get_brain, h, hq]
  · simp [get_brain, h]

/-- `brainFor` only looks at the registry entry of its key. -/
lemma brainFor_congr (inits : PyKey → MLP3 × MLP3) (reg reg' : Registry) (k : PyKey)
    (h : reg' k = reg k) : brainFor inits reg' k = brainFor inits reg k := by
  simp only [brainFor, h]

/-- A result-producing entry contributes its key to `goodKeys`. -/
lemma goodKeys_mem (L : List ServerSensor) (s : ServerSensor) (k : PyKey) (v : Vec)
    (hs : s ∈ L) (hid : s.id = some k) (hv : s.sensorValues = some v)
    (hlen : v.length = STATE_DIM) : k ∈ goodKeys L := by
  simp only [goodKeys, List.mem_filterMap]
  exact ⟨s, hs, by simp [hid, hv, hlen]⟩

/-- Folding from a successful first step. -/
lemma foldlM_cons_ok (f : Registry × ResMap → ServerSensor → Except String (Registry × ResMap))
    (acc acc' : Registry × ResMap) (s : ServerSensor) (L : List ServerSensor)
    (h : f acc s = Except.ok acc') :
    List.foldlM f acc (s :: L) = List.foldlM f acc' L := by
  rw [List.foldlM_cons, h]
  rfl

/-- An entry without an id is skipped. -/
lemma serverEvalStep_skip_noid (sigmoidF : ℚ → ℚ) (inits : PyKey → MLP3 × MLP3)
    (strTo : String → Option Int) (acc : Registry × ResMap) (s : ServerSensor)
    (hid : s.id = none) : serverEvalStep sigmoidF inits strTo acc s = Except.ok acc := by
  simp only [serverEvalStep, hid]

/-- An entry with a missing sensor field (`KeyError`) is skipped. -/
lemma serverEvalStep_skip_missing (sigmoidF : ℚ → ℚ) (inits : PyKey → MLP3 × MLP3)
    (strTo : String → Option Int) (acc : Registry × ResMap) (s : ServerSensor) (k : PyKey)
    (hid : s.id = some k) (hv : s.sensorValues = none) :
    serverEvalStep sigmoidF inits strTo acc s = Except.ok acc := by
  simp only [serverEvalStep, hid, hv]

/-- An entry whose assembled vector has the wrong length is skipped. -/
lemma serverEvalStep_skip_len (sigmoidF : ℚ → ℚ) (inits : PyKey → MLP3 × MLP3)
    (strTo : String → Option Int) (acc : Registry × ResMap) (s : ServerSensor) (k : PyKey)
    (v : Vec) (hid : s.id = some k) (hv : s.sensorValues = some v)
    (hne : v.length ≠ STATE_DIM) :
    serverEvalStep sigmoidF inits strTo acc s = Except.ok acc := by
  simp only [serverEvalStep, hid, hv]
  rw [if_pos hne]

/-- A well-formed entry with an integer id evaluates and stores its jet
forces (an integer id survives `int(...)` unchanged). -/
lemma serverEvalStep_good (sigmoidF : ℚ → ℚ) (inits : PyKey → MLP3 × MLP3)
    (strTo : String → Option Int) (acc : Registry × ResMap) (s : ServerSensor) (n : Int)
    (v : Vec) (hid : s.id = some (PyKey.intK n)) (hv : s.sensorValues = some v)
    (hlen : v.length = STATE_DIM) :
    serverEvalStep sigmoidF inits strTo acc s
      = Except.ok ((get_brain inits acc.1 (PyKey.intK n)).2,
          fun q => if q = PyKey.intK n then
            some (jetFor sigmoidF (get_brain inits acc.1 (PyKey.intK n)).1 v)
          else acc.2 q) := by
  simp only [serverEvalStep, hid, hv, pyInt]
  rw [if_neg (not_not_intro hlen)]
  rfl

/-- Main induction for the Server evaluate fold: with ids restricted to
integers (or absent), the fold never aborts, leaves keys outside
`goodKeys` untouched, and — when the good keys are pairwise distinct —
stores for every result-producing entry the actor output of the brain the
starting registry associates to its key. -/
lemma serverFold_spec (sigmoidF : ℚ → ℚ) (inits : PyKey → MLP3 × MLP3)
    (strTo : String → Option Int) :
    ∀ (L : List ServerSensor) (regA : Registry) (resA : ResMap),
      (∀ s ∈ L, s.id = none ∨ ∃ n : Int, s.id = some (PyKey.intK n)) →
      (goodKeys L).Nodup →
      ∃ reg1 res1,
        List.foldlM (serverEvalStep sigmoidF inits strTo) (regA, resA) L
          = Except.ok (reg1, res1) ∧
        (∀ q, q ∉ goodKeys L → res1 q = resA q) ∧
        (∀ s ∈ L, ∀ k v, s.id = some k → s.sensorValues = some v → v.length = STATE_DIM →
          res1 k = some (jetFor sigmoidF (brainFor inits regA k) v)) := by
  intro L
  induction L with
  | nil =>
    intro regA resA _ _
    exact ⟨regA, resA, rfl, fun q _ => rfl, fun s hs => absurd hs (List.not_mem_nil s)⟩
  | cons s L ih =>
    intro regA resA hok hnd
    have hids := hok s (List.mem_cons_self s L)
    rcases hids with hidn | ⟨n, hid⟩
    · have hgk : goodKeys (s :: L) = goodKeys L := by
        simp only [goodKeys, List.filterMap_cons, hidn]
      rw [hgk] at hnd
      obtain ⟨reg1, res1, heq, hout, hgood⟩ :=
        ih regA resA (fun t ht => hok t (List.mem_cons_of_mem s ht)) hnd
      refine ⟨reg1, res1, ?_, ?_, ?_⟩
      · rw [foldlM_cons_ok _ _ _ _ _
          (serverEvalStep_skip_noid sigmoidF inits strTo (regA, resA) s hidn)]
        exact heq
      · rw [hgk]
        exact hout
      · intro t ht k v hk hv hl
        rcases List.mem_cons.mp ht with rfl | htl
        · rw [hidn] at hk
          exact absurd hk (by simp)
        · exact hgood t htl k v hk hv hl
    · cases hv0 : s.sensorValues with
      | none =>
        have hgk : goodKeys (s :: L) = goodKeys L := by
          simp only [goodKeys, List.filterMap_cons, hid, hv0]
        rw [hgk] at hnd
        obtain ⟨reg1, res1, heq, hout, hgood⟩ :=
          ih regA resA (fun t ht => hok t (List.mem_cons_of_mem s ht)) hnd
        refine ⟨reg1, res1, ?_, ?_, ?_⟩
        · rw [foldlM_cons_ok _ _ _ _ _
            (serverEvalStep_skip_missing sigmoidF inits strTo (regA, resA) s _ hid hv0)]
          exact heq
        · rw [hgk]
          exact hout
        · intro t ht k v hk hv hl
          rcases List.mem_cons.mp ht with rfl | htl
          · rw [hv0] at hv
            exact absurd hv (by simp)
          · exact hgood t htl k v hk hv hl
      | some v0 =>
        by_cases hlen : v0.length = STATE_DIM
        · have hgk : goodKeys (s :: L) = PyKey.intK n :: goodKeys L := by
            simp only [goodKeys, List.filterMap_cons, hid, hv0]
            rw [if_pos hlen]
          rw [hgk] at hnd
          have hnotin : PyKey.intK n ∉ goodKeys L := (List.nodup_cons.mp hnd).1
          have hndL : (goodKeys L).Nodup := (List.nodup_cons.mp hnd).2
          obtain ⟨reg1, res1, heq, hout, hgood⟩ :=
            ih (get_brain inits regA (PyKey.intK n)).2
              (fun q => if q = PyKey.intK n then
                some (jetFor sigmoidF (get_brain inits regA (PyKey.intK n)).1 v0)
              else resA q)
              (fun t ht => hok t (List.mem_cons_of_mem s ht)) hndL
          refine ⟨reg1, res1, ?_, ?_, ?_⟩
          · rw [foldlM_cons_ok _ _ _ _ _
              (serverEvalStep_good sigmoidF inits strTo (regA, resA) s n v0 hid hv0 hlen)]
            exact heq
          · intro q hq
            rw [hgk] at hq
            have hq1 : q ≠ PyKey.intK n := fun hqq => hq (hqq ▸ List.mem_cons_self _ _)
            have hq2 : q ∉ goodKeys L := fun hh => hq (List.mem_cons_of_mem _ hh)
            rw [hout q hq2]
            simp only [if_neg hq1]
          · intro t ht k v hk hv hl
            rcases List.mem_cons.mp ht with rfl | htl
            · rw [hid] at hk
              injection hk with hk'
              subst hk'
              rw [hv0] at hv
              injection hv with hv'
              subst hv'
              rw [hout _ hnotin]
              simp [get_brain_fst]
            · have hkmem : k ∈ goodKeys L := goodKeys_mem L t k v htl hk hv hl
              have hkne : k ≠ PyKey.intK n := fun hkk => hnotin (hkk ▸ hkmem)
              rw [hgood t htl k v hk hv hl,
                brainFor_congr inits regA _ k
                  (get_brain_snd_ne inits regA (PyKey.intK n) k hkne)]
        · have hgk : goodKeys (s :: L) = goodKeys L := by
            simp only [goodKeys, List.filterMap_cons, hid, hv0]
            rw [if_neg hlen]
          rw [hgk] at hnd
          obtain ⟨reg1, res1, heq, hout, hgood⟩ :=
            ih regA resA (fun t ht => hok t (List.mem_cons_of_mem s ht)) hnd
          refine ⟨reg1, res1, ?_, ?_, ?_⟩
          · rw [foldlM_cons_ok _ _ _ _ _
              (serverEvalStep_skip_len sigmoidF inits strTo (regA, resA) s _ v0 hid hv0 hlen)]
            exact heq
          · rw [hgk]
            exact hout
          · intro t ht k v hk hv hl
            rcases List.mem_cons.mp ht with rfl | htl
            · rw [hv0] at hv
              injection hv with hv'
              subst hv'
              exact absurd hl hlen
            · exact hgood t htl k v hk hv hl

/-- A written Core result never disappears later in the fold. -/
lemma coreFold_preserve (tanhF sigmoidF : ℚ → ℚ) (models : PyKey → Option SimpleNet) :
    ∀ (L : List CoreSensor) (res : Option PyKey → Option JetForces) (q : Option PyKey),
      res q ≠ none → (L.foldl (coreResInsert tanhF sigmoidF models) res) q ≠ none := by
  intro L
  induction L with
  | nil =>
    intro res q h
    exact h
  | cons s L ih =>
    intro res q h
    rw [List.foldl_cons]
    apply ih
    simp only [coreResInsert]
    by_cases hq : q = s.id
    · rw [if_pos hq]
      exact fun hh => Option.noConfusion hh
    · rw [if_neg hq]
      exact h

/-- Every Core sensor entry ends up with a present result under its id. -/
lemma coreFold_writes (tanhF sigmoidF : ℚ → ℚ) (models : PyKey → Option SimpleNet) :
    ∀ (L : List CoreSensor) (res : Option PyKey → Option JetForces) (s : CoreSensor),
      s ∈ L → (L.foldl (coreResInsert tanhF sigmoidF models) res) s.id ≠ none := by
  intro L
  induction L with
  | nil =>
    intro res s hs
    exact absurd hs (List.not_mem_nil s)
  | cons t L ih =>
    intro res s hs
    rw [List.foldl_cons]
    rcases List.mem_cons.mp hs with rfl | hmem
    · apply coreFold_preserve
      simp only [coreResInsert, if_pos rfl]
      exact fun hh => Option.noConfusion hh
    · exact ih _ s hmem

/-- C8 (amended): an evaluate batch with one missing-field entity among
well-formed ones never aborts.  Server variant: the response is the `"ok"`
status, the malformed entity's result is absent, and every well-formed
entity receives the actor output of its brain.  Core variant: the status
is always `"evaluated"` and *every* entry's result is present — a missing
sensor field is default-substituted, so a registered creature gets a
computed (not zero-filled) result and only an unregistered (or id-less)
entry gets the zero-filled record. -/
theorem evaluate_batch_isolation
    (sigmoidF tanhF : ℚ → ℚ) (inits : PyKey → MLP3 × MLP3) (strTo : String → Option Int)
    (reg : Registry) (pre post : List ServerSensor) (bad : ServerSensor) (nB : Int)
    (models : PyKey → Option SimpleNet) (sensors : List CoreSensor)
    (hgoodpp : ∀ s ∈ pre ++ post, ∃ n : Int, ∃ v : Vec,
      s.id = some (PyKey.intK n) ∧ s.sensorValues = some v ∧ v.length = STATE_DIM)
    (hbadid : bad.id = some (PyKey.intK nB)) (hbadv : bad.sensorValues = none)
    (hnd : (goodKeys (pre ++ bad :: post)).Nodup)
    (hnotin : PyKey.intK nB ∉ goodKeys (pre ++ bad :: post)) :
    ∃ reg1 res1, serverEvaluate sigmoidF inits strTo reg (pre ++ bad :: post)
        = Except.ok (reg1, res1) ∧
      res1 (PyKey.intK nB) = none ∧
      (∀ s ∈ pre ++ post, ∀ k v, s.id = some k → s.sensorValues = some v →
        v.length = STATE_DIM →
        res1 k = some (jetFor sigmoidF (brainFor inits reg k) v)) ∧
      ((coreEvaluate tanhF sigmoidF models sensors).2 = "evaluated" ∧
       (∀ s ∈ sensors, (coreEvaluate tanhF sigmoidF models sensors).1 s.id ≠ none) ∧
       (∀ (s : CoreSensor) (k : PyKey) (net : SimpleNet), s.id = some k →
         models k = some net →
         coreEvalEntry tanhF sigmoidF models s
           = jetOfOutput (net.forward tanhF sigmoidF s.inputVec)) ∧
       (∀ (s : CoreSensor) (k : PyKey), s.id = some k → models k = none →
         coreEvalEntry tanhF sigmoidF models s = zeroJet)) := by
  have hmem : ∀ s ∈ pre ++ post, s ∈ pre ++ bad :: post := by
    intro s hs
    rcases List.mem_append.mp hs with h | h
    · exact List.mem_append.mpr (Or.inl h)
    · exact List.mem_append.mpr (Or.inr (List.mem_cons_of_mem bad h))
  have hok : ∀ s ∈ pre ++ bad :: post,
      s.id = none ∨ ∃ n : Int, s.id = some (PyKey.intK n) := by
    intro s hs
    rcases List.mem_append.mp hs with h | h
    · obtain ⟨n, v, hidq, _, _⟩ := hgoodpp s (List.mem_append.mpr (Or.inl h))
      exact Or.inr ⟨n, hidq⟩
    · rcases List.mem_cons.mp h with rfl | h2
      · exact Or.inr ⟨nB, hbadid⟩
      · obtain ⟨n, v, hidq, _, _⟩ := hgoodpp s (List.mem_append.mpr (Or.inr h2))
        exact Or.inr ⟨n, hidq⟩
  obtain ⟨reg1, res1, heq, hout, hgood⟩ :=
    serverFold_spec sigmoidF inits strTo (pre ++ bad :: post) reg (fun _ => none) hok hnd
  refine ⟨reg1, res1, heq, hout _ hnotin, ?_, rfl, ?_, ?_, ?_⟩
  · intro s hs k v hk hv hl
    exact hgood s (hmem s hs) k v hk hv hl
  · intro s hs
    exact coreFold_writes tanhF sigmoidF models sensors _ s hs
  · intro s k net hidq hm
    simp only [coreEvalEntry, hidq, hm]
  · intro s k hidq hm
    simp only [coreEvalEntry, hidq, hm]

/-- Witness for the amended C8: one well-formed entry (creature 1) and one
missing-field entry (creature 2) against the empty registry, and the Core
batch with the id-only sensor. -/
theorem evaluate_batch_isolation_witness :
    ∃ reg1 res1, serverEvaluate idQ inits1 strTo5 regEmpty ([goodSensor1] ++ badSensor2 :: [])
        = Except.ok (reg1, res1) ∧
      res1 (PyKey.intK 2) = none ∧
      (∀ s ∈ [goodSensor1] ++ ([] : List ServerSensor), ∀ k v, s.id = some k →
        s.sensorValues = some v → v.length = STATE_DIM →
        res1 k = some (jetFor idQ (brainFor inits1 regEmpty k) v)) ∧
      ((coreEvaluate idQ idQ models1 [sensorOnlyId]).2 = "evaluated" ∧
       (∀ s ∈ [sensorOnlyId], (coreEvaluate idQ idQ models1 [sensorOnlyId]).1 s.id ≠ none) ∧
       (∀ (s : CoreSensor) (k : PyKey) (net : SimpleNet), s.id = some k →
         models1 k = some net →
         coreEvalEntry idQ idQ models1 s = jetOfOutput (net.forward idQ idQ s.inputVec)) ∧
       (∀ (s : CoreSensor) (k : PyKey), s.id = some k → models1 k = none →
         coreEvalEntry idQ idQ models1 s = zeroJet)) :=
  evaluate_batch_isolation idQ idQ inits1 strTo5 regEmpty [goodSensor1] [] badSensor2 2
    models1 [sensorOnlyId]
    (fun s hs => by
      rw [List.append_nil, List.mem_singleton] at hs
      subst hs
      exact ⟨1, List.replicate 12 0 ++ (List.replicate 6 0 ++ List.replicate 6 0) ++ [0],
        rfl, rfl, by decide⟩)
    rfl rfl (by decide) (by decide)

/-- The output layer of a linear map has as many entries as weight rows
and bias entries allow. -/
lemma linear_apply_length (l : LinearQ) (x : Vec) :
    (l.apply x).length = min l.weight.length l.bias.length := by
  simp [LinearQ.apply, List.length_zipWith]

/-- Jet forces read off a nonempty positively-valued activation layer are
not the zero record. -/
lemma jetOfOutput_map_ne_zero (sigmoidF : ℚ → ℚ) (l : Vec) (hl : l ≠ [])
    (hpos : ∀ x, 0 < sigmoidF x) : jetOfOutput (l.map sigmoidF) ≠ zeroJet := by
  cases l with
  | nil => exact absurd rfl hl
  | cons c rest =>
    intro h
    have hfront : (jetOfOutput ((c :: rest).map sigmoidF)).Front = sigmoidF c := rfl
    rw [h] at hfront
    exact absurd hfront.symm (ne_of_gt (hpos c))

/-- C8 (counterexample): the claim says the malformed entity's result in
the Core variant is zero-filled; in fact, for a registered creature a
missing sensor field is default-substituted and the result is the computed
network output.  With the all-zero net every pre-activation is 0, where
the constant-1/2 sigmoid stand-in agrees with the real sigmoid, so the
stored result is six 1/2s — present and not the zero-filled record. -/
theorem core_missing_field_computed_cex :
    (coreEvaluate idQ sigHalf models1 [sensorOnlyId]).1 (some (PyKey.intK 1))
      = some ⟨1 / 2, 1 / 2, 1 / 2, 1 / 2, 1 / 2, 1 / 2⟩ ∧
    (⟨1 / 2, 1 / 2, 1 / 2, 1 / 2, 1 / 2, 1 / 2⟩ : JetForces) ≠ zeroJet ∧
    (coreEvaluate idQ sigHalf models1 [sensorOnlyId]).2 = "evaluated" := by
  have hconst : ∀ (l : Vec), l.length = 6 →
      jetOfOutput (l.map sigHalf) = (⟨1 / 2, 1 / 2, 1 / 2, 1 / 2, 1 / 2, 1 / 2⟩ : JetForces) := by
    intro l hl
    match l, hl with
    | [a, b, c, d, e, f], _ => rfl
  have hres : (coreEvaluate idQ sigHalf models1 [sensorOnlyId]).1 (some (PyKey.intK 1))
      = some (coreEvalEntry idQ sigHalf models1 sensorOnlyId) := by
    simp only [coreEvaluate, List.foldl_cons, List.foldl_nil, coreResInsert]
    rw [if_pos (show some (PyKey.intK 1) = sensorOnlyId.id from rfl)]
  have hentry : coreEvalEntry idQ sigHalf models1 sensorOnlyId
      = jetOfOutput (zeroSimpleNet.forward idQ sigHalf sensorOnlyId.inputVec) := by
    simp only [coreEvalEntry, sensorOnlyId, models1, if_true]
  have hlen6 : (zeroSimpleNet.fc3.apply
      ((zeroSimpleNet.fc2.apply
        ((zeroSimpleNet.fc1.apply sensorOnlyId.inputVec).map idQ)).map idQ)).length = 6 := by
    rw [linear_apply_length]
    simp only [zeroSimpleNet, List.length_replicate, Nat.min_self]
  refine ⟨?_, ?_, rfl⟩
  · rw [hres, hentry]
    simp only [SimpleNet.forward]
    rw [hconst _ hlen6]
  · intro h
    exact absurd (congrArg JetForces.Front h) (by norm_num [zeroJet])

/-- C10: the Core evaluate branch never skips an entry for a missing
sensor field — each of the seven fields is read with its default (1.0 for
the two normalized distances, 0.0 for the rest), so an id-only entry for a
registered creature yields the fully computed actuator result of the
default-substituted input vector `[1,0,0,1,0,0,0]`: the result is present,
and (since a sigmoid output is strictly positive) it is not the zero
record. -/
theorem core_default_substitution (tanhF sigmoidF : ℚ → ℚ)
    (models : PyKey → Option SimpleNet) (k : PyKey) (net : SimpleNet) (s : CoreSensor)
    (hid : s.id = some k) (hm : models k = some net)
    (h1 : s.PlantNormalizedDistance = none) (h2 : s.PlantAngleSin = none)
    (h3 : s.PlantAngleCos = none) (h4 : s.CreatureNormalizedDistance = none)
    (h5 : s.CreatureAngleSin = none) (h6 : s.CreatureAngleCos = none)
    (h7 : s.Hunger = none) :
    s.inputVec = [1, 0, 0, 1, 0, 0, 0] ∧
    coreEvalEntry tanhF sigmoidF models s
      = jetOfOutput (net.forward tanhF sigmoidF [1, 0, 0, 1, 0, 0, 0]) ∧
    (∀ sensors, s ∈ sensors →
      (coreEvaluate tanhF sigmoidF models sensors).1 s.id ≠ none) ∧
    (net.fc3.weight.length = 6 → net.fc3.bias.length = 6 → (∀ x, 0 < sigmoidF x) →
      coreEvalEntry tanhF sigmoidF models s ≠ zeroJet) := by
  have hvec : s.inputVec = [1, 0, 0, 1, 0, 0, 0] := by
    simp [CoreSensor.inputVec, h1, h2, h3, h4, h5, h6, h7]
  have hentry : coreEvalEntry tanhF sigmoidF models s
      = jetOfOutput (net.forward tanhF sigmoidF [1, 0, 0, 1, 0, 0, 0]) := by
    simp only [coreEvalEntry, hid, hm, hvec]
  refine ⟨hvec, hentry, ?_, ?_⟩
  · intro sensors hs
    exact coreFold_writes tanhF sigmoidF models sensors _ s hs
  · intro hw hb hpos
    rw [hentry]
    simp only [SimpleNet.forward]
    refine jetOfOutput_map_ne_zero sigmoidF _ ?_ hpos
    refine List.length_pos.mp ?_
    rw [linear_apply_length, hw, hb]
    norm_num

/-- Witness for C10: the id-only sensor against the registered all-zero
net, with the constant-1/2 sigmoid stand-in (which satisfies the sigmoid
range property). -/
theorem core_default_substitution_witness :
    sensorOnlyId.inputVec = [1, 0, 0, 1, 0, 0, 0] ∧
    coreEvalEntry idQ sigHalf models1 sensorOnlyId
      = jetOfOutput (zeroSimpleNet.forward idQ sigHalf [1, 0, 0, 1, 0, 0, 0]) ∧
    (∀ sensors, sensorOnlyId ∈ sensors →
      (coreEvaluate idQ sigHalf models1 sensors).1 sensorOnlyId.id ≠ none) ∧
    coreEvalEntry idQ sigHalf models1 sensorOnlyId ≠ zeroJet := by
  have h := core_default_substitution idQ sigHalf models1 (PyKey.intK 1) zeroSimpleNet
    sensorOnlyId rfl (by decide) rfl rfl rfl rfl rfl rfl rfl
  exact ⟨h.1, h.2.1, h.2.2.1,
    h.2.2.2 (by decide) (by decide) (fun x => by norm_num [sigHalf])⟩

end EvoSim
